import Mathlib

/-!
Verification of the live voice-call pipeline of the SLIM hackathon project.

The pipeline exists in two near-duplicate copies in the repository:
`src/frontend-react/src/pages/VoiceAgent.jsx` (the `VoiceAgent` page) and the
unnamed root-level `App.tsx` (`src/unnamed/part_002`).  The definitions below
are shallow embeddings of the functions of those two files: JavaScript
numbers are modelled as rationals (every arithmetic operation the pipeline
performs on them — multiply/divide by the power of two 32768, `Math.max`,
addition of durations — is exact in binary floating point for the ranges
involved, so the rational model is faithful), byte and character values as
naturals, and the React state cells as fields of explicit state records.
-/

namespace SLIM

/-! ## Audio codec: `createPcmBlob` / `decodeAudioData` (VoiceAgent.jsx 43-67) -/

/-- Truncation toward zero of a rational number, as JavaScript's ToInteger
step does when a float is stored into an `Int16Array` element. -/
def truncTowardZero (q : ℚ) : ℤ := if 0 ≤ q then ⌊q⌋ else ⌈q⌉

/-- JavaScript ToInt16, the conversion applied when assigning into an
`Int16Array` element: reduce the truncated integer modulo 2^16 into
[0, 65536), then map the upper half down by 65536. -/
def toInt16 (n : ℤ) : ℤ :=
  if 32768 ≤ n % 65536 then n % 65536 - 65536 else n % 65536

/-- One sample of `createPcmBlob` (VoiceAgent.jsx line 61):
`int16[i] = data[i] * 32768`, where the `Int16Array` store performs
ToInt16 (truncate toward zero, then wrap modulo 2^16). -/
def encodeSample (q : ℚ) : ℤ := toInt16 (truncTowardZero (q * 32768))

/-- `createPcmBlob`'s sample loop over a whole capture buffer. -/
def createPcmSamples (data : List ℚ) : List ℤ := data.map encodeSample

/-- One sample of `decodeAudioData` (VoiceAgent.jsx line 51, mono):
`channelData[i] = dataInt16[i] / 32768.0`. -/
def decodeSample (n : ℤ) : ℚ := (n : ℚ) / 32768

/-- `decodeAudioData`'s sample loop for `numChannels = 1`. -/
def decodeAudioSamples (l : List ℤ) : List ℚ := l.map decodeSample

/-! ## Playback scheduler (VoiceAgent.jsx 191-224, part_002 145-183) -/

/-- The per-chunk update of the playback scheduler (VoiceAgent.jsx 202-207):
`nextStartTimeRef.current = Math.max(nextStartTimeRef.current, outputCtx.currentTime);`
`audioSource.start(nextStartTimeRef.current);`
`nextStartTimeRef.current += buffer.duration;`
Returns the scheduled start together with the new cursor value. -/
def scheduleChunk (nextStartTime now d : ℚ) : ℚ × ℚ :=
  (max nextStartTime now, max nextStartTime now + d)

/-- Running the scheduler over a sequence of inbound chunks, each given as a
pair (arrival clock time, decoded duration); returns the scheduled starts. -/
def runSchedule (nextStartTime : ℚ) : List (ℚ × ℚ) → List ℚ
  | [] => []
  | (now, d) :: rest =>
    max nextStartTime now :: runSchedule (max nextStartTime now + d) rest

/-- The scheduler state: the `nextStartTimeRef` cursor, the ids of the
buffer sources currently registered in `sourcesRef`, and the
`isModelSpeaking` flag. -/
structure PlayerState where
  nextStartTime : ℚ
  sources : List ℕ
  isModelSpeaking : Bool
deriving DecidableEq

/-- The `message.serverContent?.interrupted` branch of `onmessage`
(VoiceAgent.jsx 215-224): call `stop()` on every registered source (inside
`try`/`catch`), clear the set, assign `nextStartTimeRef.current = 0`, and
clear `isModelSpeaking`.  The second component records which sources
received a `stop()` call. -/
def interruptedHandler (s : PlayerState) : PlayerState × List ℕ :=
  ({ nextStartTime := 0, sources := [], isModelSpeaking := false }, s.sources)

/-! ## Transcript log (VoiceAgent.jsx 226-243, part_002 185-217) -/

/-- The speaking role attached to a transcript entry. -/
inductive Role where
  | user
  | model
deriving DecidableEq

/-- One transcript entry, `{role, text, time/timestamp}` in the source. -/
structure TranscriptEntry where
  role : Role
  text : String
  timestamp : ℕ
deriving DecidableEq

/-- JavaScript `Array.prototype.slice(-n)`: the last `n` elements (the whole
array when it is shorter than `n`). -/
def jsSliceLast {α : Type} (n : ℕ) (l : List α) : List α :=
  l.drop (l.length - n)

/-- VoiceAgent.jsx's transcript append (lines 229-232 and 238-241):
`setTranscriptions(prev => [...prev.slice(-19), entry])`. -/
def vaAppendEntry {α : Type} (prev : List α) (e : α) : List α :=
  jsSliceLast 19 prev ++ [e]

/-- VoiceAgent.jsx's `inputTranscription` branch (lines 226-234): each
incoming delta with nonempty text is appended immediately as its own
entry; there is no per-turn accumulation and no turn-complete handling in
this copy of the pipeline. -/
def vaOnInputTranscription (prev : List TranscriptEntry) (text : String)
    (now : ℕ) : List TranscriptEntry :=
  if text ≠ "" then vaAppendEntry prev ⟨Role.user, text, now⟩ else prev

/-- part_002's per-turn accumulator `transcriptionRef.current`. -/
structure Accumulator where
  user : String
  model : String
deriving DecidableEq

/-- part_002 lines 185-188: `transcriptionRef.current.user += text`. -/
def addInputDelta (acc : Accumulator) (t : String) : Accumulator :=
  { acc with user := acc.user ++ t }

/-- part_002 lines 189-192: `transcriptionRef.current.model += text`. -/
def addOutputDelta (acc : Accumulator) (t : String) : Accumulator :=
  { acc with model := acc.model ++ t }

/-- part_002's `turnComplete` branch (lines 193-217): if either buffer is
nonempty, push one entry per nonempty buffer — user first, then model,
both stamped with the current time — onto the log and keep the last 20
entries; then reset both buffers. -/
def turnCompleteHandler (acc : Accumulator) (now : ℕ)
    (prev : List TranscriptEntry) : List TranscriptEntry × Accumulator :=
  let newLog :=
    if acc.user ≠ "" ∨ acc.model ≠ "" then
      jsSliceLast 20 (prev ++
        ((if acc.user ≠ "" then [⟨Role.user, acc.user, now⟩] else []) ++
         (if acc.model ≠ "" then [⟨Role.model, acc.model, now⟩] else [])))
    else prev
  (newLog, ⟨"", ""⟩)

/-! ## Capture pipeline mute gating (VoiceAgent.jsx 179-186, part_002 131-140) -/

/-- VoiceAgent.jsx's `onaudioprocess` (lines 179-186) begins with
`if (isMutedRef.current) return;` — it reads the shared mute cell afresh on
every frame.  `muteSignal i` is the value held by that cell when frame `i`
is delivered; the result lists the indices of frames that reach
`sendRealtimeInput`. -/
def sentFramesRef (muteSignal : ℕ → Bool) (n : ℕ) : List ℕ :=
  (List.range n).filter (fun i => !muteSignal i)

/-- part_002's `onaudioprocess` (lines 131-140) begins with
`if (isMuted) return;` where `isMuted` is the React state value captured by
the closure when the callback was created in `onopen`; every frame tests
that same captured boolean, so later toggles are invisible to it. -/
def sentFramesClosure (muteAtCreation : Bool) (n : ℕ) : List ℕ :=
  (List.range n).filter (fun _ => !muteAtCreation)

/-! ## Call status (the `CallStatus` object, VoiceAgent.jsx 15-21) -/

/-- The five display states of the call state machine. -/
inductive CallStatus where
  | idle
  | connecting
  | active
  | ended
  | error
deriving DecidableEq

/-! ## Teardown: `cleanupCall` (VoiceAgent.jsx 86-112, part_002 69-98) -/

/-- The resources a call session holds.  `session`, `inputCtx` and
`outputCtx` record whether the corresponding ref is non-null; each element
of `sources` is a registered buffer source, flagged with whether its
`stop()` call would throw (the source wraps every `stop()` in
`try`/`catch`). -/
structure CallResources where
  session : Bool
  sources : List Bool
  inputCtx : Bool
  outputCtx : Bool
  transcriptions : List TranscriptEntry
  nextStartTime : ℚ
  status : CallStatus
  isModelSpeaking : Bool
deriving DecidableEq

/-- One observable release action performed by `cleanupCall`.  A
`stopSource` step records whether the underlying `stop()` threw (the
exception is swallowed by the `try`/`catch`, so teardown continues either
way). -/
inductive ReleaseStep where
  | closeSession
  | stopSource (threw : Bool)
  | closeInputCtx
  | closeOutputCtx
deriving DecidableEq

/-- `cleanupCall` (VoiceAgent.jsx 86-112): close the transport session if
one is held and null the ref; attempt `stop()` on every registered source
inside `try`/`catch` and clear the set; close and null each audio context
ref that is non-null (each close failure swallowed); clear the transcript
list; reset the scheduler cursor to 0; set status ENDED (a timer moves it
to IDLE a second later); clear `isModelSpeaking`.  Returns the new state
together with the list of release actions performed. -/
def cleanupCall (s : CallResources) : CallResources × List ReleaseStep :=
  ({ session := false, sources := [], inputCtx := false, outputCtx := false,
     transcriptions := [], nextStartTime := 0, status := CallStatus.ended,
     isModelSpeaking := false },
   (if s.session then [ReleaseStep.closeSession] else []) ++
     s.sources.map ReleaseStep.stopSource ++
     (if s.inputCtx then [ReleaseStep.closeInputCtx] else []) ++
     (if s.outputCtx then [ReleaseStep.closeOutputCtx] else []))

/-! ## Call state machine (VoiceAgent.jsx 114-263 and its render, 286-399) -/

/-- The state-machine view of a `VoiceAgent` component instance: the
`status` state cell, the `error` message cell, and whether a
`ai.live.connect` attempt launched by `startCall` is still going to
deliver its `onopen` callback. -/
structure AgentState where
  status : CallStatus
  errorMsg : String
  pendingOpen : Bool
deriving DecidableEq

/-- Whether the VoiceAgent.jsx render shows a button whose click handler is
`startCall` (lines 286 and 381-399): the active-call branch renders no such
button; IDLE and ENDED render "Start Call", CONNECTING renders only a
"Connecting..." label, and ERROR renders "Try Again". -/
def startButtonShown : CallStatus → Bool
  | CallStatus.idle => true
  | CallStatus.ended => true
  | CallStatus.error => true
  | _ => false

/-- The same gating in the part_002 copy (lines 404-418): its connect
button is rendered only in IDLE and ENDED; every other status shows the
"Establishing Secure VoIP..." animation instead. -/
def startButtonShownP2 : CallStatus → Bool
  | CallStatus.idle => true
  | CallStatus.ended => true
  | _ => false

/-- The `onerror` callback (VoiceAgent.jsx 245-250), run statement by
statement: `setError("Connection error. Please try again.")`, then
`setStatus(CallStatus.ERROR)`, then `cleanupCall()` — whose own final
status update is `setStatus(CallStatus.ENDED)`, overwriting the ERROR just
written before any render can show it. -/
def onTransportError (s : AgentState) : AgentState :=
  let s1 := { s with errorMsg := "Connection error. Please try again." }
  let s2 := { s1 with status := CallStatus.error }
  { s2 with status := CallStatus.ended }

/-- The externally triggered events of one component instance.  Button
presses are only effective when the render shows the button; callback
events fire when the environment (network, timer) delivers them. -/
inductive UiEvent where
  | pressStart
  | openSucceeded
  | connectFailed (msg : String)
  | transportFailed
  | remoteClosed
  | pressEnd
  | endedTimeout
deriving DecidableEq

/-- One step of the VoiceAgent.jsx state machine.
`pressStart`: the click reaches `startCall` only when the render shows a
start button; `startCall` then sets CONNECTING, clears the error message
and launches the connect attempt.  `openSucceeded`: the `onopen` callback
of a pending connect sets ACTIVE.  `connectFailed`: the `catch` of
`startCall` records the message and sets ERROR.  `transportFailed`: the
`onerror` callback.  `remoteClosed` and `pressEnd` (the End Call button,
rendered only while ACTIVE): `cleanupCall`, whose status update is ENDED.
`endedTimeout`: the `setTimeout` scheduled by `cleanupCall` sets IDLE. -/
def step (s : AgentState) : UiEvent → AgentState
  | UiEvent.pressStart =>
    if startButtonShown s.status then
      { s with
          status := CallStatus.connecting
          errorMsg := ""
          pendingOpen := true }
    else s
  | UiEvent.openSucceeded =>
    if s.pendingOpen then
      { s with status := CallStatus.active, pendingOpen := false }
    else s
  | UiEvent.connectFailed msg =>
    if s.pendingOpen then
      { s with
          status := CallStatus.error
          errorMsg := msg
          pendingOpen := false }
    else s
  | UiEvent.transportFailed => onTransportError s
  | UiEvent.remoteClosed => { s with status := CallStatus.ended }
  | UiEvent.pressEnd =>
    if s.status = CallStatus.active then { s with status := CallStatus.ended }
    else s
  | UiEvent.endedTimeout => { s with status := CallStatus.idle }

/-- The component's initial state: status IDLE, no error, no pending
connect. -/
def initAgent : AgentState :=
  { status := CallStatus.idle, errorMsg := "", pendingOpen := false }

/-- The sequence of statuses a run through `evs` passes through, the
initial IDLE included. -/
def statusTrace (evs : List UiEvent) : List CallStatus :=
  (List.scanl step initAgent evs).map AgentState.status

/-! ## Base64 transport wrapping: `encode` / `decode` (VoiceAgent.jsx 24-41)

The repository's `encode` turns a byte array into a binary string with
`String.fromCharCode` (the identity on code units for values below 256)
and hands it to the platform's `btoa`; `decode` applies `atob` and reads
the code units back with `charCodeAt`.  `btoa`/`atob` are the standard
base64 forgiving encode/decode on code units, modelled here on lists of
natural-number codes; 61 is the code of the padding character. -/

/-- The base64 alphabet as character codes: A-Z, a-z, 0-9, then 43 and 47. -/
def b64Alpha (n : ℕ) : ℕ :=
  if n < 26 then 65 + n
  else if n < 52 then 97 + (n - 26)
  else if n < 62 then 48 + (n - 52)
  else if n = 62 then 43
  else 47

/-- The inverse alphabet lookup performed by `atob`. -/
def b64Value (c : ℕ) : ℕ :=
  if 65 ≤ c ∧ c ≤ 90 then c - 65
  else if 97 ≤ c ∧ c ≤ 122 then 26 + (c - 97)
  else if 48 ≤ c ∧ c ≤ 57 then 52 + (c - 48)
  else if c = 43 then 62
  else 63

/-- `btoa` over the code units of the binary string: each group of three
bytes becomes four sextet characters; a final group of one or two bytes is
zero-extended and padded with one or two 61s. -/
def btoaCodes : List ℕ → List ℕ
  | [] => []
  | [b0] => [b64Alpha (b0 / 4), b64Alpha (b0 % 4 * 16), 61, 61]
  | [b0, b1] =>
    [b64Alpha (b0 / 4), b64Alpha (b0 % 4 * 16 + b1 / 16),
      b64Alpha (b1 % 16 * 4), 61]
  | b0 :: b1 :: b2 :: rest =>
    b64Alpha (b0 / 4) :: b64Alpha (b0 % 4 * 16 + b1 / 16) ::
      b64Alpha (b1 % 16 * 4 + b2 / 64) :: b64Alpha (b2 % 64) ::
      btoaCodes rest

/-- `atob`'s reassembly of bytes from the padding-stripped characters: four
sextets give three bytes; a trailing group of three sextets gives two
bytes, of two sextets one byte. -/
def atobGroups : List ℕ → List ℕ
  | c0 :: c1 :: c2 :: c3 :: rest =>
    (b64Value c0 * 4 + b64Value c1 / 16) ::
      (b64Value c1 % 16 * 16 + b64Value c2 / 4) ::
      (b64Value c2 % 4 * 64 + b64Value c3) :: atobGroups rest
  | [c0, c1, c2] =>
    [b64Value c0 * 4 + b64Value c1 / 16,
      b64Value c1 % 16 * 16 + b64Value c2 / 4]
  | [c0, c1] => [b64Value c0 * 4 + b64Value c1 / 16]
  | _ => []

/-- `atob`: strip the padding characters, then reassemble the bytes. -/
def atobCodes (l : List ℕ) : List ℕ :=
  atobGroups (l.filter (fun c => c != 61))

/-- The repository's `encode` (VoiceAgent.jsx 34-41) viewed end to end on
byte values: the `String.fromCharCode` loop is the identity into code
units, so the result is `btoa` of the bytes. -/
def encode (bytes : List ℕ) : List ℕ := btoaCodes bytes

/-- The repository's `decode` (VoiceAgent.jsx 24-32) viewed end to end on
byte values: `atob`, then the `charCodeAt` loop, which is the identity. -/
def decode (base64 : List ℕ) : List ℕ := atobCodes base64

end SLIM

namespace SLIM

/-! ## Theorems: audio codec -/

theorem toInt16_of_bounds (n : ℤ) (h1 : -32768 ≤ n) (h2 : n < 32768) :
    toInt16 n = n := by
  unfold toInt16
  split <;> omega

theorem encodeSample_roundtrip_close (q : ℚ) (h1 : -1 ≤ q) (h2 : q < 1) :
    |q - decodeSample (encodeSample q)| ≤ 1 / 32768 := by
  unfold encodeSample decodeSample truncTowardZero
  by_cases hq : 0 ≤ q * 32768
  · rw [if_pos hq]
    have hb1 : ((⌊q * 32768⌋ : ℤ) : ℚ) ≤ q * 32768 := Int.floor_le _
    have hb2 : q * 32768 < ((⌊q * 32768⌋ : ℤ) : ℚ) + 1 := Int.lt_floor_add_one _
    have ht1 : (0 : ℤ) ≤ ⌊q * 32768⌋ := Int.floor_nonneg.mpr hq
    have ht2 : ⌊q * 32768⌋ < 32768 := by
      rw [Int.floor_lt]
      push_cast
      linarith
    rw [toInt16_of_bounds _ (by omega) ht2]
    rw [abs_le]
    constructor <;> linarith
  · rw [if_neg hq]
    push_neg at hq
    have hb1 : q * 32768 ≤ ((⌈q * 32768⌉ : ℤ) : ℚ) := Int.le_ceil _
    have hb2 : ((⌈q * 32768⌉ : ℤ) : ℚ) < q * 32768 + 1 := Int.ceil_lt_add_one _
    have ht1 : ⌈q * 32768⌉ ≤ 0 := Int.ceil_le.mpr (by push_cast; linarith)
    have ht2 : -32768 ≤ ⌈q * 32768⌉ := by
      have : ((-32768 : ℤ) : ℚ) ≤ ((⌈q * 32768⌉ : ℤ) : ℚ) := by push_cast; linarith
      exact_mod_cast this
    rw [toInt16_of_bounds _ ht2 (by omega)]
    rw [abs_le]
    constructor <;> linarith

/-- C3 (corrected): encoding then decoding is NOT within 1/32768 of the
original on the full closed interval [-1, 1]: at the admissible sample 1
the `Int16Array` store wraps 32768 to -32768, so the decoded value is -1,
an error of 2.  The spec's "must not wrap" is violated. -/
theorem c3_pcm_roundtrip_fails_at_one :
    createPcmSamples [(1 : ℚ)] = [-32768] ∧
    decodeAudioSamples (createPcmSamples [(1 : ℚ)]) = [(-1 : ℚ)] ∧
    ¬ |(1 : ℚ) - (-1 : ℚ)| ≤ 1 / 32768 := by
  have he : encodeSample 1 = -32768 := by
    unfold encodeSample truncTowardZero toInt16
    norm_num
  refine ⟨?_, ?_, by norm_num⟩
  · simp [createPcmSamples, he]
  · simp only [decodeAudioSamples, createPcmSamples, List.map_cons,
      List.map_nil, he, decodeSample]
    norm_num

/-- C3 (amended): for every sequence of samples in [-1, 1), encoding with
`createPcmBlob`'s sample conversion and decoding with `decodeAudioData`'s
yields values within 1/32768 of the originals.  (Only the single right
endpoint 1 had to be excluded; it wraps, see the counterexample.) -/
theorem c3_pcm_roundtrip (l : List ℚ) (h : ∀ q ∈ l, -1 ≤ q ∧ q < 1) :
    List.Forall₂ (fun a b => |a - b| ≤ 1 / 32768) l
      (decodeAudioSamples (createPcmSamples l)) := by
  induction l with
  | nil => simp [createPcmSamples, decodeAudioSamples]
  | cons a t ih =>
    simp only [createPcmSamples, decodeAudioSamples, List.map_cons,
      List.forall₂_cons]
    refine ⟨?_, ?_⟩
    · exact encodeSample_roundtrip_close a (h a (by simp)).1 (h a (by simp)).2
    · exact ih (fun q hq => h q (by simp [hq]))

/-- Witness for C3's amended theorem at the concrete buffer [1/2, -1/3, 0]. -/
theorem c3_pcm_roundtrip_witness :
    (∀ q ∈ [(1 : ℚ) / 2, -1 / 3, 0], -1 ≤ q ∧ q < 1) ∧
    List.Forall₂ (fun a b => |a - b| ≤ 1 / 32768)
      [(1 : ℚ) / 2, -1 / 3, 0]
      (decodeAudioSamples (createPcmSamples [(1 : ℚ) / 2, -1 / 3, 0])) := by
  have hmem : ∀ q ∈ [(1 : ℚ) / 2, -1 / 3, 0], -1 ≤ q ∧ q < 1 := by
    intro q hq
    simp only [List.mem_cons, List.not_mem_nil, or_false] at hq
    rcases hq with h | h | h <;> subst h <;> norm_num
  exact ⟨hmem, c3_pcm_roundtrip _ hmem⟩

/-! ## Theorems: playback scheduler -/

/-- C4 (confirmed): each inbound chunk is scheduled at
start = max(nextStart, now) with the cursor advanced to start + d, and for
chunks of durations 0.5 s, 0.3 s, 0.4 s arriving at t0, t0 + 0.1, t0 + 0.9
(cursor initially 0, clock nonnegative) the scheduled starts are
t0, t0 + 0.5, t0 + 0.9. -/
theorem c4_schedule_starts (t0 : ℚ) (h : 0 ≤ t0) :
    (∀ ns now d : ℚ, scheduleChunk ns now d = (max ns now, max ns now + d)) ∧
    runSchedule 0 [(t0, 1 / 2), (t0 + 1 / 10, 3 / 10), (t0 + 9 / 10, 2 / 5)] =
      [t0, t0 + 1 / 2, t0 + 9 / 10] := by
  refine ⟨fun ns now d => rfl, ?_⟩
  simp only [runSchedule]
  rw [max_eq_right h, max_eq_left (by linarith), max_eq_right (by linarith)]

/-- Witness for C4 at t0 = 2. -/
theorem c4_schedule_starts_witness :
    (0 : ℚ) ≤ 2 ∧
    runSchedule 0 [((2 : ℚ), 1 / 2), (2 + 1 / 10, 3 / 10), (2 + 9 / 10, 2 / 5)] =
      [2, 2 + 1 / 2, 2 + 9 / 10] :=
  ⟨by norm_num, (c4_schedule_starts 2 (by norm_num)).2⟩

/-- C2 (corrected): after the interrupted branch the active source set is
empty, as the claim states, but the next-start cursor is assigned the
constant 0, not the playback clock time at the moment of interruption.
Concretely, with the clock at 5 s and the cursor at 12 s, the cursor
after interruption is 0, not 5. -/
theorem c2_interrupt_cursor_not_now :
    (interruptedHandler ⟨12, [1, 2], true⟩).1.sources = [] ∧
    (interruptedHandler ⟨12, [1, 2], true⟩).1.nextStartTime = 0 ∧
    (interruptedHandler ⟨12, [1, 2], true⟩).1.nextStartTime ≠ (5 : ℚ) := by
  refine ⟨rfl, rfl, by norm_num [interruptedHandler]⟩

/-- C2 (amended): after the interrupted branch, every previously registered
source has been stopped, the active set is empty, and the next-start cursor
is reset to 0; because the next chunk's start is clamped to
max(cursor, now), the next inbound chunk still begins at the current
(nonnegative) clock time, so no stale backlog can delay it. -/
theorem c2_interrupt_clears_backlog (s : PlayerState) (now d : ℚ)
    (h : 0 ≤ now) :
    (interruptedHandler s).2 = s.sources ∧
    (interruptedHandler s).1.sources = [] ∧
    (interruptedHandler s).1.nextStartTime = 0 ∧
    (scheduleChunk (interruptedHandler s).1.nextStartTime now d).1 = now := by
  refine ⟨rfl, rfl, rfl, ?_⟩
  simp only [interruptedHandler, scheduleChunk]
  exact max_eq_right h

/-- Witness for C2's amended theorem: cursor 12 s, sources 1 and 2 active,
clock at 5 s, next chunk of duration 1/4 s. -/
theorem c2_interrupt_clears_backlog_witness :
    (0 : ℚ) ≤ 5 ∧
    (interruptedHandler ⟨12, [1, 2], true⟩).2 = [1, 2] ∧
    (interruptedHandler ⟨12, [1, 2], true⟩).1.sources = [] ∧
    (interruptedHandler ⟨12, [1, 2], true⟩).1.nextStartTime = 0 ∧
    (scheduleChunk (interruptedHandler ⟨12, [1, 2], true⟩).1.nextStartTime
      5 (1 / 4)).1 = 5 := by
  have h := c2_interrupt_clears_backlog ⟨12, [1, 2], true⟩ 5 (1 / 4)
    (by norm_num)
  exact ⟨by norm_num, h.1, h.2.1, h.2.2.1, h.2.2.2⟩

/-! ## Theorems: transcript log -/

theorem jsSliceLast_eq_self {α : Type} (n : ℕ) (l : List α)
    (h : l.length ≤ n) : jsSliceLast n l = l := by
  unfold jsSliceLast
  rw [Nat.sub_eq_zero_of_le h, List.drop_zero]

/-- C6 (confirmed): both transcript-append paths keep the log at no more
than 20 entries; the one-at-a-time append of VoiceAgent.jsx is exactly
"keep the last 20 of log ++ [entry]", i.e. FIFO eviction; and appending the
25 entries 0..24 one at a time to an empty log leaves exactly the most
recent 20 in insertion order. -/
theorem c6_transcript_cap :
    (∀ (l : List ℕ) (e : ℕ), (vaAppendEntry l e).length ≤ 20) ∧
    (∀ (l newEntries : List ℕ),
      (jsSliceLast 20 (l ++ newEntries)).length ≤ 20) ∧
    (∀ (l : List ℕ) (e : ℕ), vaAppendEntry l e = jsSliceLast 20 (l ++ [e])) ∧
    List.foldl vaAppendEntry ([] : List ℕ) (List.range 25) =
      (List.range 25).drop 5 := by
  refine ⟨?_, ?_, ?_, by decide⟩
  · intro l e
    simp only [vaAppendEntry, jsSliceLast, List.length_append,
      List.length_drop, List.length_cons, List.length_nil]
    omega
  · intro l newEntries
    simp only [jsSliceLast, List.length_drop, List.length_append]
    omega
  · intro l e
    have hk : (l ++ [e]).length - 20 = l.length - 19 := by
      simp only [List.length_append, List.length_cons, List.length_nil]
      omega
    unfold vaAppendEntry jsSliceLast
    rw [hk, List.drop_append_of_le_length (Nat.sub_le _ _)]

/-- C5 (counterexample to the claim as stated): in the VoiceAgent.jsx copy
of the pipeline a transcription delta is not buffered until turn-complete —
a single inbound `inputTranscription` delta "hi" at time 5 immediately
appends an entry to the (previously empty) log. -/
theorem c5_delta_appends_immediately :
    vaOnInputTranscription [] "hi" 5 = [⟨Role.user, "hi", 5⟩] ∧
    vaOnInputTranscription [] "hi" 5 ≠ ([] : List TranscriptEntry) := by
  constructor
  · simp [vaOnInputTranscription, vaAppendEntry, jsSliceLast]
  · simp [vaOnInputTranscription, vaAppendEntry, jsSliceLast]

/-- C5 (amended): in the accumulator-based copy of the pipeline (part_002),
`turnComplete` appends exactly one entry per nonempty buffer — the user
entry first, then the model entry, both stamped with the current time —
appends nothing when both buffers are empty, and resets both buffers.
(Stated below the eviction threshold so the appended entries are visible;
the cap itself is claim C6.) -/
theorem c5_turn_complete_flush (acc : Accumulator) (now : ℕ)
    (prev : List TranscriptEntry) (h : prev.length ≤ 18) :
    (turnCompleteHandler acc now prev).2 = ⟨"", ""⟩ ∧
    (turnCompleteHandler acc now prev).1 =
      prev ++ ((if acc.user ≠ "" then [⟨Role.user, acc.user, now⟩] else []) ++
               (if acc.model ≠ "" then [⟨Role.model, acc.model, now⟩] else [])) := by
  refine ⟨rfl, ?_⟩
  unfold turnCompleteHandler
  by_cases hu : acc.user = "" <;> by_cases hm : acc.model = ""
  · simp [hu, hm]
  · simp only [hu, hm, ne_eq, not_true_eq_false, not_false_eq_true,
      if_true, if_false, false_or, if_neg, ite_true, ite_false]
    rw [jsSliceLast_eq_self]
    simp only [List.length_append, List.length_nil, List.length_cons]
    omega
  · simp only [hu, hm, ne_eq, not_true_eq_false, not_false_eq_true,
      if_true, if_false, true_or, ite_true, ite_false]
    rw [jsSliceLast_eq_self]
    simp only [List.length_append, List.length_nil, List.length_cons]
    omega
  · simp only [hu, hm, ne_eq, not_false_eq_true, if_true, true_or, ite_true]
    rw [jsSliceLast_eq_self]
    simp only [List.length_append, List.length_nil, List.length_cons]
    omega

/-- Witness for C5's amended theorem: buffers "hello boss" / "vanakkam",
turn completing at time 7 over an empty log. -/
theorem c5_turn_complete_flush_witness :
    ([] : List TranscriptEntry).length ≤ 18 ∧
    (turnCompleteHandler ⟨"hello boss", "vanakkam"⟩ 7 []).2 = ⟨"", ""⟩ ∧
    (turnCompleteHandler ⟨"hello boss", "vanakkam"⟩ 7 []).1 =
      [⟨Role.user, "hello boss", 7⟩, ⟨Role.model, "vanakkam", 7⟩] := by
  have h := c5_turn_complete_flush ⟨"hello boss", "vanakkam"⟩ 7 []
    (by simp)
  refine ⟨by simp, h.1, ?_⟩
  rw [h.2]
  simp

/-! ## Theorems: capture-pipeline mute gating -/

/-- C1 (the code contradicts the claim in one of the two pipeline copies):
with the mute cell holding false at frames 0 and 2 and true at frame 1,
VoiceAgent.jsx's per-frame read of `isMutedRef.current` sends exactly
frames 0 and 2 — zero sends while muted, resuming on the very next frame —
but part_002's closure, created while the flag was false, sends every
frame including frame 1, during which mute is true. -/
theorem c1_stale_closure_mute :
    sentFramesRef (fun i => i == 1) 3 = [0, 2] ∧
    sentFramesClosure ((fun i => i == 1) 0) 3 = [0, 1, 2] ∧
    (fun i => i == 1) 1 = true := by
  refine ⟨by decide, by decide, by decide⟩

/-! ## Theorems: teardown -/

/-- C7 (confirmed): `cleanupCall` is idempotent — a second invocation
(hang-up twice, or hang-up then remote close) finds every ref already
nulled and the source set empty, performs no release action, and leaves
the state unchanged; and one invocation is a full release: regardless of
which resources are held and which `stop()` calls throw, afterwards the
session ref is null, the source set empty and both context refs null,
with one release action recorded per held resource. -/
theorem c7_cleanup_idempotent (s : CallResources) :
    (cleanupCall (cleanupCall s).1).1 = (cleanupCall s).1 ∧
    (cleanupCall (cleanupCall s).1).2 = [] ∧
    (cleanupCall s).1.session = false ∧
    (cleanupCall s).1.sources = [] ∧
    (cleanupCall s).1.inputCtx = false ∧
    (cleanupCall s).1.outputCtx = false ∧
    (s.session = true → ReleaseStep.closeSession ∈ (cleanupCall s).2) ∧
    (∀ b ∈ s.sources, ReleaseStep.stopSource b ∈ (cleanupCall s).2) ∧
    (s.inputCtx = true → ReleaseStep.closeInputCtx ∈ (cleanupCall s).2) ∧
    (s.outputCtx = true → ReleaseStep.closeOutputCtx ∈ (cleanupCall s).2) := by
  refine ⟨rfl, rfl, rfl, rfl, rfl, rfl, ?_, ?_, ?_, ?_⟩
  · intro h
    simp [cleanupCall, h]
  · intro b hb
    simp only [cleanupCall, List.mem_append]
    exact Or.inl (Or.inl (Or.inr (List.mem_map_of_mem _ hb)))
  · intro h
    simp [cleanupCall, h]
  · intro h
    simp [cleanupCall, h]

/-- Witness for C7 at a fully loaded session: transport session held, two
sources registered (the second one's stop() throwing), both audio contexts
open, cursor at 3 s, status ACTIVE. -/
theorem c7_cleanup_idempotent_witness :
    ReleaseStep.closeSession ∈
      (cleanupCall ⟨true, [false, true], true, true, [], 3,
        CallStatus.active, true⟩).2 ∧
    ReleaseStep.stopSource true ∈
      (cleanupCall ⟨true, [false, true], true, true, [], 3,
        CallStatus.active, true⟩).2 ∧
    ReleaseStep.closeInputCtx ∈
      (cleanupCall ⟨true, [false, true], true, true, [], 3,
        CallStatus.active, true⟩).2 ∧
    ReleaseStep.closeOutputCtx ∈
      (cleanupCall ⟨true, [false, true], true, true, [], 3,
        CallStatus.active, true⟩).2 ∧
    (cleanupCall (cleanupCall ⟨true, [false, true], true, true, [], 3,
        CallStatus.active, true⟩).1).2 = [] := by
  have h := c7_cleanup_idempotent
    ⟨true, [false, true], true, true, [], 3, CallStatus.active, true⟩
  exact ⟨h.2.2.2.2.2.2.1 rfl, h.2.2.2.2.2.2.2.1 true (by decide),
    h.2.2.2.2.2.2.2.2.1 rfl, h.2.2.2.2.2.2.2.2.2 rfl, h.2.1⟩

/-! ## Theorems: call state machine -/

theorem mem_scanl_self {α β : Type} (f : α → β → α) (b : α) (l : List β) :
    b ∈ List.scanl f b l := by
  cases l <;> simp [List.scanl]

/-- A state that is not ACTIVE and has no pending connect either moves to
CONNECTING or again satisfies both properties after any event. -/
theorem step_preserves_inactive (s : AgentState) (e : UiEvent)
    (h1 : s.status ≠ CallStatus.active) (h2 : s.pendingOpen = false) :
    (step s e).status = CallStatus.connecting ∨
      ((step s e).status ≠ CallStatus.active ∧
        (step s e).pendingOpen = false) := by
  cases e with
  | pressStart =>
    simp only [step]
    split
    · exact Or.inl rfl
    · exact Or.inr ⟨h1, h2⟩
  | openSucceeded =>
    simp only [step]
    split
    · next hp => rw [h2] at hp; exact Bool.noConfusion hp
    · exact Or.inr ⟨h1, h2⟩
  | connectFailed msg =>
    simp only [step]
    split
    · next hp => rw [h2] at hp; exact Bool.noConfusion hp
    · exact Or.inr ⟨h1, h2⟩
  | transportFailed =>
    refine Or.inr ⟨by simp [step, onTransportError], ?_⟩
    simpa [step, onTransportError] using h2
  | remoteClosed =>
    refine Or.inr ⟨by simp [step], ?_⟩
    simpa [step] using h2
  | pressEnd =>
    simp only [step]
    split
    · exact Or.inr ⟨by simp, h2⟩
    · exact Or.inr ⟨h1, h2⟩
  | endedTimeout =>
    refine Or.inr ⟨by simp [step], ?_⟩
    simpa [step] using h2

theorem scanl_no_connecting_no_active (evs : List UiEvent) :
    ∀ s : AgentState, s.status ≠ CallStatus.active → s.pendingOpen = false →
    CallStatus.connecting ∉ (List.scanl step s evs).map AgentState.status →
    CallStatus.active ∉ (List.scanl step s evs).map AgentState.status := by
  induction evs with
  | nil =>
    intro s h1 _ _
    simpa [List.scanl] using fun hc => h1 hc.symm
  | cons e evs ih =>
    intro s h1 h2 hnc
    simp only [List.scanl_cons, List.singleton_append, List.map_cons,
      List.mem_cons, not_or] at hnc ⊢
    refine ⟨fun hc => h1 hc.symm, ?_⟩
    have hhd : (step s e).status ≠ CallStatus.connecting := by
      intro hc
      exact hnc.2 (by
        rw [← hc]
        exact List.mem_map_of_mem _ (mem_scanl_self step (step s e) evs))
    rcases step_preserves_inactive s e h1 h2 with hconn | ⟨h1', h2'⟩
    · exact absurd hconn hhd
    · exact ih (step s e) h1' h2' hnc.2

/-- C8 (confirmed): a click while the status is CONNECTING or ACTIVE never
reaches `startCall` — the render shows no start button in those states, in
either copy of the pipeline — so a second start() is a no-op there; and
along every event sequence from the initial IDLE state, if the status
trace never shows CONNECTING it never shows ACTIVE: the machine cannot
reach ACTIVE without passing through CONNECTING first. -/
theorem c8_no_active_without_connecting :
    (∀ s : AgentState,
      s.status = CallStatus.connecting ∨ s.status = CallStatus.active →
      step s UiEvent.pressStart = s) ∧
    startButtonShown CallStatus.connecting = false ∧
    startButtonShown CallStatus.active = false ∧
    startButtonShownP2 CallStatus.connecting = false ∧
    startButtonShownP2 CallStatus.active = false ∧
    (∀ evs : List UiEvent,
      CallStatus.connecting ∉ statusTrace evs →
      CallStatus.active ∉ statusTrace evs) := by
  refine ⟨?_, rfl, rfl, rfl, rfl, ?_⟩
  · intro s hs
    rcases hs with h | h <;> simp [step, startButtonShown, h]
  · intro evs h
    exact scanl_no_connecting_no_active evs initAgent (by decide) rfl h

/-- Witness for C8 on the concrete event sequence [pressEnd, endedTimeout]:
its status trace contains no CONNECTING, and the theorem yields that it
contains no ACTIVE; the no-op conjunct is applied at a CONNECTING state. -/
theorem c8_no_active_without_connecting_witness :
    CallStatus.connecting ∉ statusTrace [UiEvent.pressEnd,
      UiEvent.endedTimeout] ∧
    CallStatus.active ∉ statusTrace [UiEvent.pressEnd,
      UiEvent.endedTimeout] ∧
    step ⟨CallStatus.connecting, "", true⟩ UiEvent.pressStart =
      ⟨CallStatus.connecting, "", true⟩ := by
  refine ⟨by decide, ?_, ?_⟩
  · exact c8_no_active_without_connecting.2.2.2.2.2 _ (by decide)
  · exact c8_no_active_without_connecting.1 _ (Or.inl rfl)

/-- C9 (counterexample to the claim as stated): a fatal transport error
during an active call does not leave the call in the ERROR display state —
`onerror`'s `setStatus(ERROR)` is immediately overwritten by the
`setStatus(ENDED)` inside the `cleanupCall()` it invokes, so the status
committed after the handler is ENDED, not ERROR. -/
theorem c9_error_status_overwritten :
    (onTransportError ⟨CallStatus.active, "", false⟩).status =
      CallStatus.ended ∧
    (onTransportError ⟨CallStatus.active, "", false⟩).status ≠
      CallStatus.error := by
  exact ⟨rfl, by decide⟩

/-- C9 (amended): a fatal transport error during a call stores the short
message "Connection error. Please try again.", and the status it leaves
behind is ENDED (ERROR having been transiently written and then
overwritten by teardown); immediate retry is still available, because the
render shows a start button in ENDED and a subsequent press moves the
machine to CONNECTING. -/
theorem c9_error_teardown_allows_retry (s : AgentState) :
    (onTransportError s).errorMsg = "Connection error. Please try again." ∧
    (onTransportError s).status = CallStatus.ended ∧
    startButtonShown CallStatus.ended = true ∧
    (step (onTransportError s) UiEvent.pressStart).status =
      CallStatus.connecting := by
  refine ⟨rfl, rfl, rfl, ?_⟩
  simp [step, onTransportError, startButtonShown]

/-! ## Theorems: base64 wrapping -/

theorem b64Value_b64Alpha : ∀ n : ℕ, n < 64 → b64Value (b64Alpha n) = n := by
  decide

theorem b64Alpha_ne_61 : ∀ n : ℕ, n < 64 → b64Alpha n ≠ 61 := by
  decide

/-- C10 (confirmed): for every byte array, decoding the base64 string the
encoder produces returns exactly the original bytes, so the transport
wrapping of PCM16 payloads is lossless. -/
theorem c10_base64_roundtrip (bs : List ℕ) (h : ∀ b ∈ bs, b < 256) :
    decode (encode bs) = bs := by
  unfold decode encode
  induction bs using btoaCodes.induct with
  | case1 => rfl
  | case2 b0 =>
    have h0 : b0 < 256 := h b0 (by simp)
    have n1 := b64Alpha_ne_61 (b0 / 4) (by omega)
    have n2 := b64Alpha_ne_61 (b0 % 4 * 16) (by omega)
    have e1 := b64Value_b64Alpha (b0 / 4) (by omega)
    have e2 := b64Value_b64Alpha (b0 % 4 * 16) (by omega)
    simp only [btoaCodes, atobCodes, List.filter_cons, List.filter_nil,
      bne_iff_ne, ne_eq, n1, n2, not_false_eq_true, if_true, if_false,
      ite_true, ite_false, decide_not]
    simp only [atobGroups, e1, e2, List.cons.injEq, and_true]
    omega
  | case3 b0 b1 =>
    have h0 : b0 < 256 := h b0 (by simp)
    have h1 : b1 < 256 := h b1 (by simp)
    have n1 := b64Alpha_ne_61 (b0 / 4) (by omega)
    have n2 := b64Alpha_ne_61 (b0 % 4 * 16 + b1 / 16) (by omega)
    have n3 := b64Alpha_ne_61 (b1 % 16 * 4) (by omega)
    have e1 := b64Value_b64Alpha (b0 / 4) (by omega)
    have e2 := b64Value_b64Alpha (b0 % 4 * 16 + b1 / 16) (by omega)
    have e3 := b64Value_b64Alpha (b1 % 16 * 4) (by omega)
    simp only [btoaCodes, atobCodes, List.filter_cons, List.filter_nil,
      bne_iff_ne, ne_eq, n1, n2, n3, not_false_eq_true, if_true, if_false,
      ite_true, ite_false, decide_not]
    simp only [atobGroups, e1, e2, e3, List.cons.injEq, and_true]
    omega
  | case4 b0 b1 b2 rest ih =>
    have h0 : b0 < 256 := h b0 (by simp)
    have h1 : b1 < 256 := h b1 (by simp)
    have h2 : b2 < 256 := h b2 (by simp)
    have hrest : ∀ b ∈ rest, b < 256 := fun b hb => h b (by simp [hb])
    have ih' := ih hrest
    unfold atobCodes at ih'
    have n1 := b64Alpha_ne_61 (b0 / 4) (by omega)
    have n2 := b64Alpha_ne_61 (b0 % 4 * 16 + b1 / 16) (by omega)
    have n3 := b64Alpha_ne_61 (b1 % 16 * 4 + b2 / 64) (by omega)
    have n4 := b64Alpha_ne_61 (b2 % 64) (by omega)
    have e1 := b64Value_b64Alpha (b0 / 4) (by omega)
    have e2 := b64Value_b64Alpha (b0 % 4 * 16 + b1 / 16) (by omega)
    have e3 := b64Value_b64Alpha (b1 % 16 * 4 + b2 / 64) (by omega)
    have e4 := b64Value_b64Alpha (b2 % 64) (by omega)
    simp only [btoaCodes, atobCodes, List.filter_cons, bne_iff_ne, ne_eq,
      n1, n2, n3, n4, not_false_eq_true, if_true, if_false, ite_true,
      ite_false, decide_not]
    simp only [atobGroups, e1, e2, e3, e4, List.cons.injEq]
    exact ⟨by omega, by omega, by omega, ih'⟩

/-- Witness for C10 at the concrete byte array [0, 255, 77, 128]. -/
theorem c10_base64_roundtrip_witness :
    (∀ b ∈ [0, 255, 77, 128], b < 256) ∧
    decode (encode [0, 255, 77, 128]) = [0, 255, 77, 128] :=
  ⟨by decide, c10_base64_roundtrip _ (by decide)⟩

end SLIM
